import Mathlib

/-!
Shallow embedding of the KarabinerPyX layer compiler
(`src/karabinerpyx/templates.py`, `src/karabinerpyx/models.py`,
`src/karabinerpyx/layer.py`).

Python dictionaries are modelled as insertion-ordered association lists
(`List (String × Val)`), matching CPython dict semantics for the operations
the code performs (literal construction, `update` with fresh keys, key
lookup).  Python `str.format` templates are transcribed as lists of
literal/placeholder segments (`Seg`): the `{name}` placeholders of the
source strings become `Seg.hole name`.  Exceptions are modelled with
`Except String`, carrying the source's error message.
-/

namespace KPyX

/-- A Python/JSON-like value tree: the shape of everything the builders emit. -/
inductive Val where
  | str (s : String)
  | int (n : Int)
  | bool (b : Bool)
  | list (xs : List Val)
  | dict (xs : List (String × Val))
deriving Repr

mutual

def valBeq : Val → Val → Bool
  | .str a, .str b => a == b
  | .int a, .int b => a == b
  | .bool a, .bool b => a == b
  | .list a, .list b => valListBeq a b
  | .dict a, .dict b => valDictBeq a b
  | _, _ => false

def valListBeq : List Val → List Val → Bool
  | [], [] => true
  | a :: as, b :: bs => valBeq a b && valListBeq as bs
  | _, _ => false

def valDictBeq : List (String × Val) → List (String × Val) → Bool
  | [], [] => true
  | (k, v) :: as, (l, w) :: bs => k == l && valBeq v w && valDictBeq as bs
  | _, _ => false

end

mutual

theorem valBeq_iff : ∀ a b : Val, valBeq a b = true ↔ a = b
  | .str a, .str b => by simp [valBeq]
  | .int a, .int b => by simp [valBeq]
  | .bool a, .bool b => by simp [valBeq]
  | .list a, .list b => by simp [valBeq, valListBeq_iff a b]
  | .dict a, .dict b => by simp [valBeq, valDictBeq_iff a b]
  | .str a, .int b => by simp [valBeq]
  | .str a, .bool b => by simp [valBeq]
  | .str a, .list b => by simp [valBeq]
  | .str a, .dict b => by simp [valBeq]
  | .int a, .str b => by simp [valBeq]
  | .int a, .bool b => by simp [valBeq]
  | .int a, .list b => by simp [valBeq]
  | .int a, .dict b => by simp [valBeq]
  | .bool a, .str b => by simp [valBeq]
  | .bool a, .int b => by simp [valBeq]
  | .bool a, .list b => by simp [valBeq]
  | .bool a, .dict b => by simp [valBeq]
  | .list a, .str b => by simp [valBeq]
  | .list a, .int b => by simp [valBeq]
  | .list a, .bool b => by simp [valBeq]
  | .list a, .dict b => by simp [valBeq]
  | .dict a, .str b => by simp [valBeq]
  | .dict a, .int b => by simp [valBeq]
  | .dict a, .bool b => by simp [valBeq]
  | .dict a, .list b => by simp [valBeq]

theorem valListBeq_iff : ∀ a b : List Val, valListBeq a b = true ↔ a = b
  | [], [] => by simp [valListBeq]
  | a :: as, [] => by simp [valListBeq]
  | [], b :: bs => by simp [valListBeq]
  | a :: as, b :: bs => by
      simp [valListBeq, valBeq_iff a b, valListBeq_iff as bs]

theorem valDictBeq_iff : ∀ a b : List (String × Val), valDictBeq a b = true ↔ a = b
  | [], [] => by simp [valDictBeq]
  | a :: as, [] => by simp [valDictBeq]
  | [], b :: bs => by simp [valDictBeq]
  | (k, v) :: as, (l, w) :: bs => by
      simp [valDictBeq, valBeq_iff v w, valDictBeq_iff as bs, Prod.ext_iff,
        and_assoc]

end

instance : DecidableEq Val := fun a b =>
  decidable_of_iff (valBeq a b = true) (valBeq_iff a b)

/-- Python truthiness of a value (`if value:`). -/
def truthy : Val → Bool
  | .str s => !s.isEmpty
  | .int n => n != 0
  | .bool b => b
  | .list xs => !xs.isEmpty
  | .dict xs => !xs.isEmpty

/-- Dictionary lookup (`d.get(k)` / `k in d` combined): first entry with key `k`. -/
def getKey (xs : List (String × Val)) (k : String) : Option Val :=
  (xs.find? (fun p => p.1 == k)).map (fun p => p.2)

/-- Python dict assignment `d[k] = v` on insertion-ordered dicts: replaces
the value in place when the key exists, appends otherwise. -/
def dictUpd {α : Type} (d : List (String × α)) (k : String) (v : α) :
    List (String × α) :=
  if (d.find? (fun p => p.1 == k)).isSome then
    d.map (fun p => if p.1 == k then (k, v) else p)
  else
    d ++ [(k, v)]

/-- Python `dict.update`. -/
def dictUpdAll {α : Type} (d extra : List (String × α)) : List (String × α) :=
  extra.foldl (fun acc kv => dictUpd acc kv.1 kv.2) d

/-- `{"key_code": k}` -/
def kc (k : String) : Val := .dict [("key_code", .str k)]

/-- `{"set_variable": {"name": n, "value": v}}` -/
def setVar (n : String) (v : Int) : Val :=
  .dict [("set_variable", .dict [("name", .str n), ("value", .int v)])]

/-- `{"type": "variable_if", "name": n, "value": v}` -/
def varIf (n : String) (v : Int) : Val :=
  .dict [("type", .str "variable_if"), ("name", .str n), ("value", .int v)]

mutual

/-- Python `repr` of a value, used by f-string interpolation of dict targets.
Good enough for the values the builders hold (no escaping of quotes). -/
def pyRepr : Val → String
  | .str s => "\x27" ++ s ++ "\x27"
  | .int n => toString n
  | .bool b => if b then "True" else "False"
  | .list xs => "[" ++ pyReprSeq xs ++ "]"
  | .dict xs => "\x7b" ++ pyReprEntries xs ++ "\x7d"

def pyReprSeq : List Val → String
  | [] => ""
  | [x] => pyRepr x
  | x :: y :: xs => pyRepr x ++ ", " ++ pyReprSeq (y :: xs)

def pyReprEntries : List (String × Val) → String
  | [] => ""
  | [(k, v)] => "\x27" ++ k ++ "\x27: " ++ pyRepr v
  | (k, v) :: e :: xs =>
      "\x27" ++ k ++ "\x27: " ++ pyRepr v ++ ", " ++ pyReprEntries (e :: xs)

end

/-! ## templates.py -/

/-- One segment of a parsed format template: literal text or a `{name}`
placeholder. -/
inductive Seg where
  | lit (s : String)
  | hole (name : String)
deriving DecidableEq, Repr

/-- A template string, transcribed into its literal/placeholder segments. -/
abbrev Template := List Seg

/-- `MACRO_TEMPLATES`: the built-in templates of `templates.py`, with each
`{name}` placeholder of the Python source string transcribed as a hole. -/
def MACRO_TEMPLATES : List (String × Template) :=
  [ ("typed_text",
      [Seg.lit "osascript -e \x27tell application \"System Events\" to keystroke \"",
       Seg.hole "text", Seg.lit "\"\x27"]),
    ("alfred",
      [Seg.lit "osascript -e \x27tell application id \"com.runningwithcrayons.Alfred\" to run trigger \"",
       Seg.hole "trigger", Seg.lit "\" in workflow \"", Seg.hole "workflow",
       Seg.lit "\" with argument \"", Seg.hole "arg", Seg.lit "\"\x27"]),
    ("keyboard_maestro",
      [Seg.lit "osascript -e \x27tell application \"Keyboard Maestro Engine\" to do script \"",
       Seg.hole "script", Seg.lit "\"\x27"]),
    ("open", [Seg.lit "open \"", Seg.hole "path", Seg.lit "\""]),
    ("shell", [Seg.hole "command"]) ]

/-- Template-name lookup in a registry (`MACRO_TEMPLATES.get(template_name)`). -/
def lookupTemplate (reg : List (String × Template)) (name : String) :
    Option Template :=
  (reg.find? (fun p => p.1 == name)).map (fun p => p.2)

/-- Parameter lookup for `str.format(**kwargs)`: kwargs are string-valued
in every use the code makes of them. -/
def lookupParam (params : List (String × String)) (k : String) : Option String :=
  (params.find? (fun p => p.1 == k)).map (fun p => p.2)

/-- `template.format(**kwargs)`: concatenates segments left to right and
fails with the first placeholder name that has no matching parameter
(CPython raises `KeyError` on the first missing name in evaluation order). -/
def formatSegs (params : List (String × String)) : List Seg → Except String String
  | [] => .ok ""
  | Seg.lit s :: rest => (formatSegs params rest).map (fun t => s ++ t)
  | Seg.hole k :: rest =>
      match lookupParam params k with
      | none => .error k
      | some v => (formatSegs params rest).map (fun t => v ++ t)

/-- `make_shell_command(template_name, **kwargs)`. -/
def make_shell_command (reg : List (String × Template)) (template_name : String)
    (params : List (String × String)) : Except String (List Val) :=
  match lookupTemplate reg template_name with
  | none => .error ("Unknown template: " ++ template_name)
  | some template =>
      match formatSegs params template with
      | .error missing =>
          .error ("Missing template parameter \x27" ++ missing ++
            "\x27 for template \x27" ++ template_name ++ "\x27")
      | .ok command => .ok [.dict [("shell_command", .str command)]]

/-- `register_template(name, template)`; the emptiness test on the template
string corresponds to the segment list being empty, and the dict assignment
`MACRO_TEMPLATES[name] = template` is `dictUpd`. -/
def register_template (reg : List (String × Template)) (name : String)
    (t : Template) : Except String (List (String × Template)) :=
  if name = "" then .error "Template name cannot be empty"
  else if t.isEmpty then .error "Template cannot be empty"
  else .ok (dictUpd reg name t)

/-! ## models.py — `Manipulator`

Pure model of the `Manipulator` dataclass builder.  The Python constructor
is a plain dataclass constructor and performs no validation; `build` is the
only place that checks `from_key`.  The `deepcopy` calls in `build` are the
identity in this pure value model (object-identity questions are treated in
the heap model further below). -/

structure Manipulator where
  from_key : String
  mandatory_modifiers : List String := []
  optional_modifiers : List String := []
  to_keys : List Val := []
  to_if_alone : List Val := []
  to_if_held_down : List Val := []
  conditions : List Val := []
deriving DecidableEq, Repr

/-- `Manipulator.modifiers(mandatory, optional)`: `if mandatory:` /
`if optional:` — `None` and `[]` both skip, so unsupplied is modelled as `[]`. -/
def Manipulator.modifiers (m : Manipulator) (mandatory optional : List String) :
    Manipulator :=
  let m1 := if mandatory.isEmpty then m
    else { m with mandatory_modifiers := m.mandatory_modifiers ++ mandatory }
  if optional.isEmpty then m1
  else { m1 with optional_modifiers := m1.optional_modifiers ++ optional }

/-- Build the `{"key_code": key, "modifiers"?: [...]}` target used by
`to` / `if_alone` / `if_held`, including the trailing `target.update(extra)`. -/
def keyTarget (key : String) (modifiers : List String)
    (extra : List (String × Val)) : Val :=
  .dict (dictUpdAll
    ([("key_code", Val.str key)] ++
      (if modifiers.isEmpty then []
       else [("modifiers", Val.list (modifiers.map Val.str))]))
    extra)

/-- `Manipulator.to(key, modifiers, **extra)`: appends, never validates. -/
def Manipulator.to (m : Manipulator) (key : String) (modifiers : List String)
    (extra : List (String × Val)) : Manipulator :=
  { m with to_keys := m.to_keys ++ [keyTarget key modifiers extra] }

/-- `Manipulator.to_raw(action)`. -/
def Manipulator.to_raw (m : Manipulator) (action : List (String × Val)) :
    Manipulator :=
  { m with to_keys := m.to_keys ++ [Val.dict action] }

/-- `Manipulator.if_alone(key, modifiers, **extra)`. -/
def Manipulator.if_alone (m : Manipulator) (key : String)
    (modifiers : List String) (extra : List (String × Val)) : Manipulator :=
  { m with to_if_alone := m.to_if_alone ++ [keyTarget key modifiers extra] }

/-- `Manipulator.if_held(key, modifiers, **extra)`. -/
def Manipulator.if_held (m : Manipulator) (key : String)
    (modifiers : List String) (extra : List (String × Val)) : Manipulator :=
  { m with to_if_held_down := m.to_if_held_down ++ [keyTarget key modifiers extra] }

def appIfCond (apps : List String) : Val :=
  .dict [("type", .str "frontmost_application_if"),
         ("bundle_identifiers", .list (apps.map Val.str))]

def appUnlessCond (apps : List String) : Val :=
  .dict [("type", .str "frontmost_application_unless"),
         ("bundle_identifiers", .list (apps.map Val.str))]

def varUnlessCond (var_name : String) (value : Int) : Val :=
  .dict [("type", .str "variable_unless"), ("name", .str var_name),
         ("value", .int value)]

/-- `Manipulator.when_app` (a single string argument is wrapped into a
one-element list by the source before this point). -/
def Manipulator.when_app (m : Manipulator) (apps : List String) : Manipulator :=
  { m with conditions := m.conditions ++ [appIfCond apps] }

def Manipulator.when_variable (m : Manipulator) (var_name : String)
    (value : Int) : Manipulator :=
  { m with conditions := m.conditions ++ [varIf var_name value] }

def Manipulator.unless_app (m : Manipulator) (apps : List String) : Manipulator :=
  { m with conditions := m.conditions ++ [appUnlessCond apps] }

def Manipulator.unless_variable (m : Manipulator) (var_name : String)
    (value : Int) : Manipulator :=
  { m with conditions := m.conditions ++ [varUnlessCond var_name value] }

/-- `Manipulator.build()`: the only validation of `from_key` in the class. -/
def Manipulator.build (m : Manipulator) : Except String Val :=
  if m.from_key = "" then .error "from_key cannot be empty"
  else
    let from_dict :=
      [("key_code", Val.str m.from_key)] ++
      (if m.mandatory_modifiers.isEmpty && m.optional_modifiers.isEmpty then []
       else [("modifiers", Val.dict (
         (if m.mandatory_modifiers.isEmpty then []
          else [("mandatory", Val.list (m.mandatory_modifiers.map Val.str))]) ++
         (if m.optional_modifiers.isEmpty then []
          else [("optional", Val.list (m.optional_modifiers.map Val.str))])))])
    .ok (Val.dict
      ([("type", Val.str "basic"), ("from", Val.dict from_dict)] ++
       (if m.to_keys.isEmpty then [] else [("to", Val.list m.to_keys)]) ++
       (if m.to_if_alone.isEmpty then []
        else [("to_if_alone", Val.list m.to_if_alone)]) ++
       (if m.to_if_held_down.isEmpty then []
        else [("to_if_held_down", Val.list m.to_if_held_down)]) ++
       (if m.conditions.isEmpty then []
        else [("conditions", Val.list m.conditions)])))

/-! ## layer.py — `SimultaneousManipulator` -/

/-- The `to_key` argument of `map_combo` / `SimultaneousManipulator`:
`str | list[dict]`. -/
inductive ComboTarget where
  | key (s : String)
  | acts (xs : List Val)
deriving DecidableEq, Repr

/-- The `**options` kwargs dict of `SimultaneousManipulator`: only these
five keys are ever read (`options.get(...)`), so the bag is modelled as
one optional field per read key; `none` = key absent from the kwargs. -/
structure SimOptions where
  detect_key_down_uninterruptedly : Option Val := none
  key_down_order : Option Val := none
  key_up_order : Option Val := none
  key_up_when : Option Val := none
  to_after_key_up : Option Val := none
deriving DecidableEq, Repr

structure SimultaneousManipulator where
  combo_keys : List String
  to_target : List Val
  variable_name : String
  extra_conditions : List Val
  options : SimOptions
deriving DecidableEq, Repr

/-- `SimultaneousManipulator.__init__`: the only validating constructor of
the class. -/
def SimultaneousManipulator.make (combo_keys : List String)
    (to_key : ComboTarget) (variable_name : String) (conditions : List Val)
    (options : SimOptions) : Except String SimultaneousManipulator :=
  if combo_keys.length < 2 then
    .error "combo_keys must contain at least two keys"
  else if combo_keys.any (fun k => k = "") then
    .error "combo_keys cannot contain empty keys"
  else
    .ok { combo_keys,
          to_target := match to_key with
            | .acts xs => xs
            | .key s => [kc s],
          variable_name,
          extra_conditions := conditions,
          options }

/-- The `sim_options` dict of `SimultaneousManipulator.build`, with each
`options.get(key, default)` applied. -/
def simOptionEntries (o : SimOptions) : List (String × Val) :=
  [ ("detect_key_down_uninterruptedly",
      o.detect_key_down_uninterruptedly.getD (Val.bool false)),
    ("key_down_order", o.key_down_order.getD (Val.str "insensitive")),
    ("key_up_order", o.key_up_order.getD (Val.str "insensitive")),
    ("key_up_when", o.key_up_when.getD (Val.str "any")) ]

/-- The `filtered_options` comprehension of `SimultaneousManipulator.build`. -/
def filteredSimOptions (o : SimOptions) : List (String × Val) :=
  (simOptionEntries o).filter (fun kv =>
    truthy kv.2 &&
    !((kv.1 == "key_down_order" || kv.1 == "key_up_order") &&
        kv.2 == Val.str "insensitive") &&
    !(kv.1 == "key_up_when" && kv.2 == Val.str "any"))

/-- `SimultaneousManipulator.build()`.  The source assigns
`result["from"]["simultaneous_options"]` after building `result`, which
appends that key at the end of the `from` dict. -/
def SimultaneousManipulator.build (m : SimultaneousManipulator) : Val :=
  let filtered_options := filteredSimOptions m.options
  Val.dict
    ([("type", Val.str "basic"),
      ("from", Val.dict
        ([("simultaneous", Val.list (m.combo_keys.map kc)),
          ("modifiers", Val.dict [("optional", Val.list [Val.str "any"])])] ++
         (if filtered_options.isEmpty then []
          else [("simultaneous_options", Val.dict filtered_options)]))),
      ("to", Val.list m.to_target),
      ("conditions", Val.list (varIf m.variable_name 1 :: m.extra_conditions))] ++
     (match m.options.to_after_key_up with
      | none => []
      | some v => [("to_after_key_up", v)]))

/-! ## layer.py — `LayerStackBuilder` -/

/-- A mapping target as stored in `LayerStackBuilder.mappings`:
a key string, a raw action dict (from `map`), or the
`{"template": t, "params": p}` dict stored by the macro-mapping method
(distinguished at build time by the `"template"` key). -/
inductive MapTarget where
  | key (s : String)
  | act (d : List (String × Val))
  | tmpl (template : String) (params : List (String × String))
deriving DecidableEq, Repr

structure LayerStackBuilder where
  name : String
  trigger_keys : List String
  to_if_alone : Option String
  mappings : List (String × MapTarget) := []
  combos : List (List String × ComboTarget × SimOptions) := []
  sequences : List (List String × String) := []
  sequence_timeout_ms : Int := 500
  conditions : List Val := []
deriving DecidableEq, Repr

/-- `LayerStackBuilder.__init__` (a single-string `trigger_keys` argument is
wrapped into a one-element list before the checks). -/
def LayerStackBuilder.make (name : String) (trigger_keys : List String)
    (to_if_alone : Option String) : Except String LayerStackBuilder :=
  if name = "" then .error "Layer name cannot be empty"
  else if trigger_keys.isEmpty then .error "trigger_keys cannot be empty"
  else if trigger_keys.any (fun k => k = "") then
    .error "trigger_keys cannot contain empty keys"
  else .ok { name, trigger_keys, to_if_alone }

/-- `LayerStackBuilder.map(from_key, to_key)`: only string targets get the
emptiness check (`isinstance(to_key, str) and not to_key`). -/
def LayerStackBuilder.map (b : LayerStackBuilder) (from_key : String)
    (to_key : MapTarget) : Except String LayerStackBuilder :=
  if from_key = "" then .error "from_key cannot be empty"
  else if to_key = .key "" then .error "to_key cannot be empty"
  else .ok { b with mappings := b.mappings ++ [(from_key, to_key)] }

/-- `LayerStackBuilder.map_combo(combo_keys, to_key, **options)`. -/
def LayerStackBuilder.map_combo (b : LayerStackBuilder)
    (combo_keys : List String) (to_key : ComboTarget) (options : SimOptions) :
    Except String LayerStackBuilder :=
  if combo_keys.length < 2 then
    .error "combo_keys must contain at least two keys"
  else if combo_keys.any (fun k => k = "") then
    .error "combo_keys cannot contain empty keys"
  else if to_key = .key "" then .error "to_key cannot be empty"
  else .ok { b with combos := b.combos ++ [(combo_keys, to_key, options)] }

/-- `LayerStackBuilder.map_sequence(seq_keys, to_key)`. -/
def LayerStackBuilder.map_sequence (b : LayerStackBuilder)
    (seq_keys : List String) (to_key : String) :
    Except String LayerStackBuilder :=
  if seq_keys.length < 2 then
    .error "seq_keys must contain at least two keys"
  else if seq_keys.any (fun k => k = "") then
    .error "seq_keys cannot contain empty keys"
  else if to_key = "" then .error "to_key cannot be empty"
  else .ok { b with sequences := b.sequences ++ [(seq_keys, to_key)] }

/-- The macro-mapping method of `LayerStackBuilder` (source name is the
`map` method name suffixed with the word for a macro): it validates only
`template_type`, not `from_key`, and stores
`(from_key, {"template": template_type, "params": params})`. -/
def LayerStackBuilder.macroMap (b : LayerStackBuilder) (from_key : String)
    (template_type : String) (params : List (String × String)) :
    Except String LayerStackBuilder :=
  if template_type = "" then .error "template_type cannot be empty"
  else .ok { b with mappings :=
    b.mappings ++ [(from_key, MapTarget.tmpl template_type params)] }

/-- `LayerStackBuilder.when_app`. -/
def LayerStackBuilder.when_app (b : LayerStackBuilder) (apps : List String) :
    LayerStackBuilder :=
  { b with conditions := b.conditions ++ [appIfCond apps] }

/-- `LayerStackBuilder.unless_app`. -/
def LayerStackBuilder.unless_app (b : LayerStackBuilder) (apps : List String) :
    LayerStackBuilder :=
  { b with conditions := b.conditions ++ [appUnlessCond apps] }

/-- `LayerStackBuilder.unless_variable`. -/
def LayerStackBuilder.unless_variable (b : LayerStackBuilder)
    (var_name : String) (value : Int) : LayerStackBuilder :=
  { b with conditions := b.conditions ++ [varUnlessCond var_name value] }

/-- `LayerStackBuilder.set_sequence_timeout(ms)`. -/
def LayerStackBuilder.set_sequence_timeout (b : LayerStackBuilder) (ms : Int) :
    Except String LayerStackBuilder :=
  if ms ≤ 0 then .error "Sequence timeout must be positive"
  else .ok { b with sequence_timeout_ms := ms }

/-- A compiled rule.  The source's `Rule` holds manipulator objects and
builds them in `Rule.build()`; every rule the layer compiler creates holds
exactly one manipulator, and this model stores its built tree directly. -/
structure Rule where
  description : String
  manipulators : List Val
deriving DecidableEq, Repr

/-- `LayerStackBuilder._build_rule`.  The `**extra` kwargs keys are always
disjoint from the base keys, so `manip.update(extra)` appends. -/
def build_rule (description : String) (from_block : Val)
    (to_actions : List Val) (conditions : Option (List Val))
    (extra : List (String × Val)) : Rule :=
  { description,
    manipulators := [Val.dict
      ([("type", Val.str "basic"), ("from", from_block),
        ("to", Val.list to_actions)] ++
       (match conditions with
        | some cs => if cs.isEmpty then [] else [("conditions", Val.list cs)]
        | none => []) ++
       extra)] }

/-- `LayerStackBuilder._layer_conditions`. -/
def layer_conditions (b : LayerStackBuilder) : List Val :=
  varIf b.name 1 :: b.conditions

/-- `LayerStackBuilder._build_activation_rule`. -/
def build_activation_rule (b : LayerStackBuilder) : Rule :=
  match b.trigger_keys with
  | [key] =>
      let alone_key := match b.to_if_alone with
        | none => key
        | some s => if s.isEmpty then key else s
      build_rule (b.name ++ " activation")
        (Val.dict [("key_code", Val.str key),
          ("modifiers", Val.dict [("optional", Val.list [Val.str "any"])])])
        [setVar b.name 1] none
        [("to_after_key_up", Val.list [setVar b.name 0]),
         ("to_if_alone", Val.list [kc alone_key])]
  | keys =>
      build_rule (b.name ++ " stacked activation")
        (Val.dict [("simultaneous", Val.list (keys.map kc)),
          ("modifiers", Val.dict [("optional", Val.list [Val.str "any"])])])
        [setVar b.name 1] none
        [("to_after_key_up", Val.list [setVar b.name 0])]

/-- One iteration of `LayerStackBuilder._build_mapping_rules`. -/
def mappingRule (reg : List (String × Template)) (b : LayerStackBuilder)
    (from_key : String) (target : MapTarget) : Except String Rule :=
  let from_block := Val.dict [("key_code", Val.str from_key),
    ("modifiers", Val.dict [("optional", Val.list [Val.str "any"])])]
  let conditions := layer_conditions b
  match target with
  | .tmpl template_name params =>
      (make_shell_command reg template_name params).map (fun to_actions =>
        build_rule (b.name ++ " macro: " ++ from_key ++ " -> " ++ template_name)
          from_block to_actions (some conditions) [])
  | .key s =>
      .ok (build_rule (b.name ++ ": " ++ from_key ++ " -> " ++ s)
        from_block [kc s] (some conditions) [])
  | .act d =>
      .ok (build_rule (b.name ++ ": " ++ from_key ++ " -> " ++
          pyRepr (Val.dict d))
        from_block [Val.dict d] (some conditions) [])

/-- The `rules = []; for ...: rules.append(...)` loop shape shared by
`_build_mapping_rules` and `_build_combo_rules`: sequential traversal that
stops at the first raised exception. -/
def collectE {α β : Type} (f : α → Except String β) :
    List α → Except String (List β)
  | [] => .ok []
  | a :: as =>
      match f a with
      | .error e => .error e
      | .ok b =>
          match collectE f as with
          | .error e => .error e
          | .ok bs => .ok (b :: bs)

/-- `LayerStackBuilder._build_mapping_rules`. -/
def build_mapping_rules (reg : List (String × Template))
    (b : LayerStackBuilder) : Except String (List Rule) :=
  collectE (fun p => mappingRule reg b p.1 p.2) b.mappings

/-- One iteration of `LayerStackBuilder._build_combo_rules`. -/
def comboRule (b : LayerStackBuilder) (combo : List String)
    (to_target : ComboTarget) (options : SimOptions) : Except String Rule :=
  let to_desc := match to_target with
    | .key s => s
    | .acts _ => "complex"
  (SimultaneousManipulator.make combo to_target b.name b.conditions
      options).map (fun manip =>
    { description := b.name ++ " combo " ++ String.intercalate "+" combo ++
        " -> " ++ to_desc,
      manipulators := [manip.build] })

/-- `LayerStackBuilder._build_combo_rules`. -/
def build_combo_rules (b : LayerStackBuilder) : Except String (List Rule) :=
  collectE (fun c => comboRule b c.1 c.2.1 c.2.2) b.combos

/-- The synthesized per-sequence variable-name stem
`f"{self.name}_seq_{'_'.join(seq)}"`. -/
def seqName (b : LayerStackBuilder) (seq : List String) : String :=
  b.name ++ "_seq_" ++ String.intercalate "_" seq

/-- The synthesized step variable `f"{seq_name}_step{index + 1}"`. -/
def stepVarName (b : LayerStackBuilder) (seq : List String) (index : Nat) :
    String :=
  seqName b seq ++ "_step" ++ toString (index + 1)

/-- The `reset_all` list of `_build_sequence_rules`. -/
def resetAll (b : LayerStackBuilder) (seq : List String) : List Val :=
  (List.range seq.length).map (fun i => setVar (stepVarName b seq i) 0)

/-- One iteration of the inner loop of `_build_sequence_rules`
(`for index, key in enumerate(seq)`). -/
def stepRule (b : LayerStackBuilder) (seq : List String) (to_key : String)
    (index : Nat) : Rule :=
  let current_var := stepVarName b seq index
  let conditions := layer_conditions b ++
    (if index = 0 then [] else [varIf (stepVarName b seq (index - 1)) 1])
  let to_actions := [setVar current_var 1] ++
    (if index = seq.length - 1 then kc to_key :: resetAll b seq else [])
  let cancel_actions := [setVar current_var 0] ++
    (if index = 0 then [] else [setVar (stepVarName b seq (index - 1)) 0])
  build_rule (b.name ++ " sequence: " ++ String.intercalate "+" seq)
    (Val.dict [("key_code", Val.str (seq.getD index "")),
      ("modifiers", Val.dict [("optional", Val.list [Val.str "any"])])])
    to_actions (some conditions)
    [("to_delayed_action", Val.dict
        [("to_if_canceled", Val.list cancel_actions),
         ("to_if_invoked", Val.list [])]),
     ("parameters", Val.dict
        [("basic.to_delayed_action_delay_milliseconds",
          Val.int b.sequence_timeout_ms)])]

/-- `LayerStackBuilder._build_sequence_rules`. -/
def build_sequence_rules (b : LayerStackBuilder) : List Rule :=
  b.sequences.flatMap (fun p =>
    (List.range p.1.length).map (fun index => stepRule b p.1 p.2 index))

/-- `LayerStackBuilder.build_rules()`. -/
def build_rules (reg : List (String × Template)) (b : LayerStackBuilder) :
    Except String (List Rule) :=
  match build_mapping_rules reg b with
  | .error e => .error e
  | .ok maps =>
      match build_combo_rules b with
      | .error e => .error e
      | .ok combos =>
          .ok (build_activation_rule b ::
            (maps ++ combos ++ build_sequence_rules b))

/-! ## Accessors used by the statements -/

/-- Key lookup on a dict value (`none` on non-dicts). -/
def valGet (v : Val) (k : String) : Option Val :=
  match v with
  | .dict es => getKey es k
  | _ => none

/-- The entry list of the single manipulator of a layer-compiler rule. -/
def ruleManipEntries (r : Rule) : List (String × Val) :=
  match r.manipulators with
  | [Val.dict es] => es
  | _ => []

/-- Key lookup on the single manipulator of a layer-compiler rule. -/
def ruleGet (r : Rule) (k : String) : Option Val :=
  getKey (ruleManipEntries r) k

/-! ## Helper lemmas -/

theorem collectE_ok_length {α β : Type} (f : α → Except String β) :
    ∀ (l : List α) (ys : List β), collectE f l = .ok ys →
      ys.length = l.length := by
  intro l
  induction l with
  | nil =>
      intro ys h
      simp only [collectE] at h
      cases h
      rfl
  | cons a as ih =>
      intro ys h
      simp only [collectE] at h
      cases hfa : f a with
      | error e => rw [hfa] at h; cases h
      | ok b =>
          rw [hfa] at h
          cases hrest : collectE f as with
          | error e => rw [hrest] at h; cases h
          | ok bs =>
              rw [hrest] at h
              cases h
              simp [ih bs hrest]

theorem collectE_ok_mem {α β : Type} (f : α → Except String β) :
    ∀ (l : List α) (ys : List β), collectE f l = .ok ys →
      ∀ y ∈ ys, ∃ x ∈ l, f x = .ok y := by
  intro l
  induction l with
  | nil =>
      intro ys h y hy
      simp only [collectE] at h
      cases h
      simp at hy
  | cons a as ih =>
      intro ys h y hy
      simp only [collectE] at h
      cases hfa : f a with
      | error e => rw [hfa] at h; cases h
      | ok b =>
          rw [hfa] at h
          cases hrest : collectE f as with
          | error e => rw [hrest] at h; cases h
          | ok bs =>
              rw [hrest] at h
              cases h
              rcases List.mem_cons.mp hy with hyb | hyr
              · exact ⟨a, List.mem_cons_self a as, hyb ▸ hfa⟩
              · obtain ⟨x, hx, hfx⟩ := ih bs hrest y hyr
                exact ⟨x, List.mem_cons_of_mem a hx, hfx⟩

theorem collectE_ok_get {α β : Type} (f : α → Except String β) :
    ∀ (l : List α) (ys : List β), collectE f l = .ok ys →
      ∀ (i : Nat) (y : β), ys.get? i = some y →
        ∃ x, l.get? i = some x ∧ f x = .ok y := by
  intro l
  induction l with
  | nil =>
      intro ys h i y hy
      simp only [collectE] at h
      cases h
      simp at hy
  | cons a as ih =>
      intro ys h i y hy
      simp only [collectE] at h
      cases hfa : f a with
      | error e => rw [hfa] at h; cases h
      | ok b =>
          rw [hfa] at h
          cases hrest : collectE f as with
          | error e => rw [hrest] at h; cases h
          | ok bs =>
              rw [hrest] at h
              cases h
              cases i with
              | zero =>
                  simp only [List.get?] at hy
                  cases hy
                  exact ⟨a, rfl, hfa⟩
              | succ j =>
                  simp only [List.get?] at hy
                  exact ih bs hrest j y hy

theorem lookupTemplate_append_self (name : String) (t : Template) :
    ∀ reg : List (String × Template),
      reg.find? (fun p => p.1 == name) = none →
      lookupTemplate (reg ++ [(name, t)]) name = some t := by
  intro reg
  induction reg with
  | nil => intro _; simp [lookupTemplate, List.find?]
  | cons kv rest ih =>
      intro h
      by_cases hkv : (kv.1 == name) = true
      · simp [List.find?, hkv] at h
      · simp only [List.find?, hkv] at h
        simp only [List.cons_append]
        simpa [lookupTemplate, List.find?, hkv] using ih h

theorem lookupTemplate_map_upd (name : String) (t : Template) :
    ∀ reg : List (String × Template),
      (reg.find? (fun p => p.1 == name)).isSome →
      lookupTemplate
        (reg.map (fun p => if p.1 == name then (name, t) else p)) name =
        some t := by
  intro reg
  induction reg with
  | nil => intro h; simp [List.find?] at h
  | cons kv rest ih =>
      intro h
      by_cases hkv : (kv.1 == name) = true
      · simp [lookupTemplate, List.find?, hkv]
      · simp only [List.find?, hkv] at h
        simp only [List.map, if_neg hkv]
        simpa [lookupTemplate, List.find?, hkv] using ih (by simpa using h)

theorem lookupTemplate_dictUpd_self (reg : List (String × Template))
    (name : String) (t : Template) :
    lookupTemplate (dictUpd reg name t) name = some t := by
  by_cases hk : (reg.find? (fun p => p.1 == name)).isSome
  · simp only [dictUpd, hk, if_true]
    exact lookupTemplate_map_upd name t reg hk
  · have hnone : reg.find? (fun p => p.1 == name) = none := by
      cases h : reg.find? (fun p => p.1 == name)
      · rfl
      · rw [h] at hk; simp at hk
    simp only [dictUpd, hk, if_false]
    exact lookupTemplate_append_self name t reg hnone

theorem formatSegs_hits_missing (params : List (String × String)) :
    ∀ segs : List Seg,
      (∃ k, Seg.hole k ∈ segs ∧ lookupParam params k = none) →
      ∃ k, Seg.hole k ∈ segs ∧ lookupParam params k = none ∧
        formatSegs params segs = .error k := by
  intro segs
  induction segs with
  | nil =>
      rintro ⟨k, hk, -⟩
      simp at hk
  | cons s rest ih =>
      rintro ⟨k, hk, hnone⟩
      cases s with
      | lit t =>
          have hmem : Seg.hole k ∈ rest := by
            rcases List.mem_cons.mp hk with h | h
            · cases h
            · exact h
          obtain ⟨k2, h1, h2, h3⟩ := ih ⟨k, hmem, hnone⟩
          exact ⟨k2, List.mem_cons_of_mem _ h1, h2, by
            simp [formatSegs, h3, Except.map]⟩
      | hole k0 =>
          cases hlk : lookupParam params k0 with
          | none =>
              exact ⟨k0, List.mem_cons_self _ _, hlk, by
                simp [formatSegs, hlk]⟩
          | some v =>
              have hmem : Seg.hole k ∈ rest := by
                rcases List.mem_cons.mp hk with h | h
                · cases h
                  rw [hlk] at hnone
                  cases hnone
                · exact h
              obtain ⟨k2, h1, h2, h3⟩ := ih ⟨k, hmem, hnone⟩
              exact ⟨k2, List.mem_cons_of_mem _ h1, h2, by
                simp [formatSegs, hlk, h3, Except.map]⟩

/-! ## C8 — template registry contract -/

/-- C8: rendering fails with the unknown-template error for every name not
in the registry; rendering `typed_text` without a `text` parameter fails
with the missing-parameter error naming `text`; whenever some placeholder
of the looked-up template has no matching parameter, rendering fails with
the missing-parameter error naming a missing placeholder; registering with
an empty name or empty template fails; registering an existing name
silently overwrites, so a subsequent lookup (hence render) uses the
last-registered template. -/
theorem template_registry_contract (reg : List (String × Template))
    (name : String) (t : Template) (params : List (String × String)) :
    (lookupTemplate reg name = none →
      make_shell_command reg name params =
        .error ("Unknown template: " ++ name)) ∧
    make_shell_command MACRO_TEMPLATES "typed_text" [] =
      .error ("Missing template parameter \x27" ++ "text" ++
        "\x27 for template \x27" ++ "typed_text" ++ "\x27") ∧
    (∀ tpl, lookupTemplate reg name = some tpl →
      (∃ k, Seg.hole k ∈ tpl ∧ lookupParam params k = none) →
      ∃ k, Seg.hole k ∈ tpl ∧ lookupParam params k = none ∧
        make_shell_command reg name params =
          .error ("Missing template parameter \x27" ++ k ++
            "\x27 for template \x27" ++ name ++ "\x27")) ∧
    register_template reg "" t = .error "Template name cannot be empty" ∧
    (name ≠ "" → register_template reg name [] =
      .error "Template cannot be empty") ∧
    (name ≠ "" → t ≠ [] →
      register_template reg name t = .ok (dictUpd reg name t) ∧
      lookupTemplate (dictUpd reg name t) name = some t) := by
  refine ⟨?_, ?_, ?_, ?_, ?_, ?_⟩
  · intro h
    simp [make_shell_command, h]
  · rfl
  · intro tpl hlook hex
    obtain ⟨k, h1, h2, h3⟩ := formatSegs_hits_missing params tpl hex
    exact ⟨k, h1, h2, by simp [make_shell_command, hlook, h3]⟩
  · rfl
  · intro h
    simp [register_template, h]
  · intro h1 h2
    constructor
    · simp [register_template, h1, h2]
    · exact lookupTemplate_dictUpd_self reg name t

/-- Witness for C8 at concrete inputs. -/
theorem template_registry_contract_witness :
    make_shell_command [] "zz" [] = .error ("Unknown template: " ++ "zz") ∧
    register_template MACRO_TEMPLATES "typed_text" [Seg.lit "echo hi"] =
      .ok (dictUpd MACRO_TEMPLATES "typed_text" [Seg.lit "echo hi"]) ∧
    lookupTemplate (dictUpd MACRO_TEMPLATES "typed_text" [Seg.lit "echo hi"])
      "typed_text" = some [Seg.lit "echo hi"] :=
  ⟨(template_registry_contract [] "zz" [Seg.lit "x"] []).1 rfl,
   ((template_registry_contract MACRO_TEMPLATES "typed_text"
      [Seg.lit "echo hi"] []).2.2.2.2.2 (by decide) (by decide)).1,
   ((template_registry_contract MACRO_TEMPLATES "typed_text"
      [Seg.lit "echo hi"] []).2.2.2.2.2 (by decide) (by decide)).2⟩

/-! ## C6 — fail-fast validation of the layer builder -/

/-- A small concrete layer used by several concrete statements. -/
def demoLayer : LayerStackBuilder :=
  { name := "L", trigger_keys := ["a"], to_if_alone := none }

/-- C6 (code bug evaluated at the failing input): every other layer-builder
entry point rejects its bad value immediately, but the macro-mapping
method does not validate `from_key`: called with an empty from-key it
succeeds and stores the mapping instead of raising. -/
theorem layer_fail_fast_except_macro_from_key :
    LayerStackBuilder.make "" ["a"] none =
      .error "Layer name cannot be empty" ∧
    LayerStackBuilder.make "L" [] none =
      .error "trigger_keys cannot be empty" ∧
    LayerStackBuilder.make "L" [""] none =
      .error "trigger_keys cannot contain empty keys" ∧
    demoLayer.map "" (.key "x") = .error "from_key cannot be empty" ∧
    demoLayer.map "j" (.key "") = .error "to_key cannot be empty" ∧
    demoLayer.map_combo ["j"] (.key "x") {} =
      .error "combo_keys must contain at least two keys" ∧
    demoLayer.map_combo ["j", ""] (.key "x") {} =
      .error "combo_keys cannot contain empty keys" ∧
    demoLayer.map_sequence ["g"] "home" =
      .error "seq_keys must contain at least two keys" ∧
    demoLayer.map_sequence ["g", ""] "home" =
      .error "seq_keys cannot contain empty keys" ∧
    demoLayer.macroMap "" "typed_text" [("text", "x")] =
      .ok { demoLayer with
        mappings := [("", MapTarget.tmpl "typed_text" [("text", "x")])] } :=
  ⟨rfl, rfl, rfl, rfl, rfl, rfl, rfl, rfl, rfl, rfl⟩

/-! ## C7 — Manipulator validation timing and mutator semantics -/

/-- C7 counterexample: the `Manipulator` constructor is a plain dataclass
constructor, so an empty from-key is accepted at construction and only
rejected later by `build()`; `to("")` is never rejected at all — the empty
key target is appended and compiles into the output. -/
theorem manipulator_validation_deferred :
    ({ from_key := "" } : Manipulator).build =
      .error "from_key cannot be empty" ∧
    (({ from_key := "a" } : Manipulator).to "" [] []).to_keys =
      [Val.dict [("key_code", Val.str "")]] ∧
    (({ from_key := "a" } : Manipulator).to "" [] []).build =
      .ok (Val.dict [("type", Val.str "basic"),
        ("from", Val.dict [("key_code", Val.str "a")]),
        ("to", Val.list [Val.dict [("key_code", Val.str "")]])]) :=
  ⟨rfl, rfl, rfl⟩

/-- C7 amended: an empty from-key is rejected with the invalid-argument
error at `build()` time (build fails exactly when the from-key is empty),
`to()` performs no validation and appends its target, and the fluent
mutators accumulate instead of overwriting. -/
theorem manipulator_build_and_mutators (m : Manipulator) (k : String)
    (mods : List String) (extra : List (String × Val)) (n : String) (v : Int)
    (hmods : mods ≠ []) :
    (m.build = .error "from_key cannot be empty" ↔ m.from_key = "") ∧
    (m.from_key ≠ "" → ∃ tree, m.build = .ok tree) ∧
    (m.to k mods extra).to_keys = m.to_keys ++ [keyTarget k mods extra] ∧
    (m.to k mods extra).conditions = m.conditions ∧
    (m.when_variable n v).conditions = m.conditions ++ [varIf n v] ∧
    (m.when_app [n]).conditions = m.conditions ++ [appIfCond [n]] ∧
    (m.modifiers mods []).mandatory_modifiers =
      m.mandatory_modifiers ++ mods := by
  refine ⟨?_, ?_, rfl, rfl, rfl, rfl, ?_⟩
  · by_cases h : m.from_key = "" <;> simp [Manipulator.build, h]
  · intro h
    exact ⟨_, by rw [Manipulator.build, if_neg h]⟩
  · have h : mods.isEmpty = false := by
      cases mods with
      | nil => exact absurd rfl hmods
      | cons a as => rfl
    simp [Manipulator.modifiers, h]

/-- Witness for C7 at a concrete builder. -/
theorem manipulator_build_and_mutators_witness :
    (({ from_key := "caps_lock" } : Manipulator).modifiers ["left_shift"]
      []).mandatory_modifiers = ["left_shift"] :=
  (manipulator_build_and_mutators { from_key := "caps_lock" } "b"
    ["left_shift"] [] "x" 1 (by decide)).2.2.2.2.2.2

/-! ## C5 — to_if_alone on the activation rule -/

/-- C5 counterexample: a single-trigger layer with NO tap-alone action
still compiles an activation manipulator WITH a `to_if_alone` entry, bound
to the trigger key itself — the key is not absent as claimed. -/
theorem activation_alone_emitted_without_tap_action :
    LayerStackBuilder.make "hyper" ["right_command"] none =
      .ok { name := "hyper", trigger_keys := ["right_command"],
            to_if_alone := none } ∧
    ruleGet (build_activation_rule
        { name := "hyper", trigger_keys := ["right_command"],
          to_if_alone := none }) "to_if_alone" =
      some (Val.list [kc "right_command"]) :=
  ⟨rfl, rfl⟩

/-- C5 amended: for a single-trigger layer the compiled activation
manipulator ALWAYS contains a `to_if_alone` entry: the tap-alone action
when one was specified (and non-empty), else the trigger key itself. -/
theorem activation_to_if_alone (b : LayerStackBuilder) (k : String)
    (hk : b.trigger_keys = [k]) :
    ruleGet (build_activation_rule b) "to_if_alone" =
      some (Val.list [kc (match b.to_if_alone with
        | none => k
        | some s => if s.isEmpty then k else s)]) ∧
    (∀ a, b.to_if_alone = some a → a.isEmpty = false →
      ruleGet (build_activation_rule b) "to_if_alone" =
        some (Val.list [kc a])) := by
  obtain ⟨name, tks, alone, mps, cbs, sqs, tmo, conds⟩ := b
  simp only at hk
  subst hk
  constructor
  · cases alone with
    | none => rfl
    | some s => rfl
  · intro a ha hne
    simp only at ha
    subst ha
    simp only [build_activation_rule, hne]
    rfl

/-- Witness for C5's amended theorem at a concrete layer. -/
theorem activation_to_if_alone_witness :
    ruleGet (build_activation_rule
        { name := "caps", trigger_keys := ["caps_lock"],
          to_if_alone := some "escape" }) "to_if_alone" =
      some (Val.list [kc "escape"]) :=
  (activation_to_if_alone
    { name := "caps", trigger_keys := ["caps_lock"],
      to_if_alone := some "escape" } "caps_lock" rfl).2 "escape" rfl rfl

/-! ## C9 — simultaneous_options defaulting and forwarding -/

/-- The `from` block a compiled combo manipulator carries, for any options. -/
theorem valGet_build_from (m : SimultaneousManipulator) :
    valGet m.build "from" = some (Val.dict
      ([("simultaneous", Val.list (m.combo_keys.map kc)),
        ("modifiers", Val.dict [("optional", Val.list [Val.str "any"])])] ++
       (if (filteredSimOptions m.options).isEmpty then []
        else [("simultaneous_options",
          Val.dict (filteredSimOptions m.options))]))) := by
  rcases m with ⟨ck, tt, vn, ec, opts⟩
  rcases opts with ⟨d, kdo, kuo, kuw, tak⟩
  cases tak <;> rfl

/-- C9: a combo compiled with no explicit simultaneity options carries no
`simultaneous_options` key at all; when the key is present its dict is
exactly the filtered options; and every entry of the filtered options is
the caller-supplied value verbatim, truthy, and different from its
default/insensitive value. -/
theorem combo_simultaneous_options (m : SimultaneousManipulator) :
    ((m.options.detect_key_down_uninterruptedly = none ∧
      m.options.key_down_order = none ∧
      m.options.key_up_order = none ∧
      m.options.key_up_when = none) →
      (valGet m.build "from").bind
        (fun f => valGet f "simultaneous_options") = none) ∧
    (∀ fo, (valGet m.build "from").bind
        (fun f => valGet f "simultaneous_options") = some (Val.dict fo) →
      fo = filteredSimOptions m.options) ∧
    (∀ k v, (k, v) ∈ filteredSimOptions m.options →
      truthy v = true ∧
      ((k = "detect_key_down_uninterruptedly" ∧
        m.options.detect_key_down_uninterruptedly = some v ∧
        v ≠ Val.bool false) ∨
       (k = "key_down_order" ∧ m.options.key_down_order = some v ∧
        v ≠ Val.str "insensitive") ∨
       (k = "key_up_order" ∧ m.options.key_up_order = some v ∧
        v ≠ Val.str "insensitive") ∨
       (k = "key_up_when" ∧ m.options.key_up_when = some v ∧
        v ≠ Val.str "any"))) := by
  refine ⟨?_, ?_, ?_⟩
  · rintro ⟨h1, h2, h3, h4⟩
    have hfo : filteredSimOptions m.options = [] := by
      rcases hm : m.options with ⟨d, kdo, kuo, kuw, tak⟩
      rw [hm] at h1 h2 h3 h4
      obtain rfl : d = none := h1
      obtain rfl : kdo = none := h2
      obtain rfl : kuo = none := h3
      obtain rfl : kuw = none := h4
      rfl
    rw [valGet_build_from m, hfo]
    rfl
  · intro fo h
    rw [valGet_build_from m] at h
    by_cases hfe : (filteredSimOptions m.options).isEmpty = true
    · rw [if_pos hfe] at h
      simp [valGet, getKey, List.find?] at h
    · rw [if_neg hfe] at h
      simp [valGet, getKey, List.find?] at h
      exact h.symm
  · intro k v hkv
    rcases hm : m.options with ⟨d, kdo, kuo, kuw, tak⟩
    rw [hm] at hkv
    simp only [filteredSimOptions, simOptionEntries, List.mem_filter,
      List.mem_cons, List.not_mem_nil, or_false] at hkv
    obtain ⟨hmem, hpred⟩ := hkv
    rcases hmem with h | h | h | h
    · injection h with hk hv
      subst hk
      cases d with
      | none =>
          simp only [Option.getD] at hv
          subst hv
          simp [truthy] at hpred
      | some w =>
          simp only [Option.getD] at hv
          subst hv
          simp only [show (("detect_key_down_uninterruptedly" ==
              "key_down_order") : Bool) = false from rfl,
            show (("detect_key_down_uninterruptedly" ==
              "key_up_order") : Bool) = false from rfl,
            show (("detect_key_down_uninterruptedly" ==
              "key_up_when") : Bool) = false from rfl,
            Bool.false_or, Bool.false_and, Bool.not_false, Bool.and_true]
            at hpred
          exact ⟨hpred, Or.inl ⟨rfl, rfl,
            fun hw => by rw [hw] at hpred; simp [truthy] at hpred⟩⟩
    · injection h with hk hv
      subst hk
      cases kdo with
      | none =>
          simp only [Option.getD] at hv
          subst hv
          simp at hpred
      | some w =>
          simp only [Option.getD] at hv
          subst hv
          simp only [show (("key_down_order" == "key_down_order") : Bool) =
              true from rfl,
            show (("key_down_order" == "key_up_when") : Bool) = false from rfl,
            Bool.true_or, Bool.true_and, Bool.false_and, Bool.not_false,
            Bool.and_true, Bool.and_eq_true, Bool.not_eq_true'] at hpred
          refine ⟨hpred.1, Or.inr (Or.inl ⟨rfl, rfl, ?_⟩)⟩
          intro hw
          rw [hw] at hpred
          simp at hpred
    · injection h with hk hv
      subst hk
      cases kuo with
      | none =>
          simp only [Option.getD] at hv
          subst hv
          simp at hpred
      | some w =>
          simp only [Option.getD] at hv
          subst hv
          simp only [show (("key_up_order" == "key_down_order") : Bool) =
              false from rfl,
            show (("key_up_order" == "key_up_order") : Bool) = true from rfl,
            show (("key_up_order" == "key_up_when") : Bool) = false from rfl,
            Bool.false_or, Bool.or_true, Bool.true_and, Bool.false_and,
            Bool.not_false, Bool.and_true, Bool.and_eq_true,
            Bool.not_eq_true'] at hpred
          refine ⟨hpred.1, Or.inr (Or.inr (Or.inl ⟨rfl, rfl, ?_⟩))⟩
          intro hw
          rw [hw] at hpred
          simp at hpred
    · injection h with hk hv
      subst hk
      cases kuw with
      | none =>
          simp only [Option.getD] at hv
          subst hv
          simp at hpred
      | some w =>
          simp only [Option.getD] at hv
          subst hv
          simp only [show (("key_up_when" == "key_down_order") : Bool) =
              false from rfl,
            show (("key_up_when" == "key_up_order") : Bool) = false from rfl,
            show (("key_up_when" == "key_up_when") : Bool) = true from rfl,
            Bool.false_or, Bool.false_and, Bool.not_false, Bool.true_and,
            Bool.and_true, Bool.and_eq_true, Bool.not_eq_true'] at hpred
          refine ⟨hpred.1, Or.inr (Or.inr (Or.inr ⟨rfl, rfl, ?_⟩))⟩
          intro hw
          rw [hw] at hpred
          simp at hpred

/-- Witness for C9 at a concrete combo manipulator. -/
theorem combo_simultaneous_options_witness :
    (valGet (SimultaneousManipulator.build
        { combo_keys := ["j", "k"], to_target := [kc "escape"],
          variable_name := "hyper", extra_conditions := [],
          options := {} }) "from").bind
      (fun f => valGet f "simultaneous_options") = none :=
  (combo_simultaneous_options
    { combo_keys := ["j", "k"], to_target := [kc "escape"],
      variable_name := "hyper", extra_conditions := [],
      options := {} }).1 ⟨rfl, rfl, rfl, rfl⟩

/-! ## C1 — shape of the sequence step rules -/

/-- C1: a sequence of n keys yields exactly one step rule per step, each of
which belongs to the layer's sequence rules; step i (0-based; the claim
counts 1-based) is guarded by the layer conditions plus, for i > 0, the
previous step variable; its `to` list sets step variable i and, on the
last step, appends the final key action and then resets every step
variable; its `to_delayed_action.to_if_canceled` resets step variable i
and, for i > 0, also step variable i-1; and its per-rule parameter is the
layer's sequence timeout. -/
theorem sequence_step_rules (b : LayerStackBuilder) (seq : List String)
    (to_key : String) (i : Nat)
    (hmem : (seq, to_key) ∈ b.sequences) (hi : i < seq.length) :
    ((List.range seq.length).map (stepRule b seq to_key)).length =
      seq.length ∧
    (∀ r ∈ (List.range seq.length).map (stepRule b seq to_key),
      r ∈ build_sequence_rules b) ∧
    ruleGet (stepRule b seq to_key i) "conditions" =
      some (Val.list (layer_conditions b ++
        (if i = 0 then [] else [varIf (stepVarName b seq (i - 1)) 1]))) ∧
    ruleGet (stepRule b seq to_key i) "to" =
      some (Val.list ([setVar (stepVarName b seq i) 1] ++
        (if i = seq.length - 1 then kc to_key :: resetAll b seq else []))) ∧
    ruleGet (stepRule b seq to_key i) "to_delayed_action" =
      some (Val.dict
        [("to_if_canceled", Val.list ([setVar (stepVarName b seq i) 0] ++
            (if i = 0 then [] else [setVar (stepVarName b seq (i - 1)) 0]))),
         ("to_if_invoked", Val.list [])]) ∧
    ruleGet (stepRule b seq to_key i) "parameters" =
      some (Val.dict [("basic.to_delayed_action_delay_milliseconds",
        Val.int b.sequence_timeout_ms)]) := by
  refine ⟨by simp, ?_, rfl, rfl, rfl, rfl⟩
  intro r hr
  simp only [build_sequence_rules, List.mem_flatMap]
  exact ⟨(seq, to_key), hmem, hr⟩

/-- A concrete layer with one two-key sequence, for witnesses. -/
def seqLayer : LayerStackBuilder :=
  { name := "L", trigger_keys := ["a"], to_if_alone := none,
    sequences := [(["g", "g"], "home")] }

/-- Witness for C1 at the second step of a concrete two-key sequence. -/
theorem sequence_step_rules_witness :
    ruleGet (stepRule seqLayer ["g", "g"] "home" 1) "to" =
      some (Val.list [setVar "L_seq_g_g_step2" 1, kc "home",
        setVar "L_seq_g_g_step1" 0, setVar "L_seq_g_g_step2" 0]) := by
  have h := (sequence_step_rules seqLayer ["g", "g"] "home" 1
    (by decide) (by decide)).2.2.2.1
  simpa [stepVarName, seqName, resetAll, List.range_succ] using h

/-! ## C10 — synthesized step-variable names -/

/-- C10: the synthesized step variables are named exactly
`{layer}_seq_{keys joined by underscores}_step{I}` with 1-based index I,
and those exact strings are the names used in the step rules'
set_variable actions, variable_if guards, and cancellation resets. -/
theorem step_variable_names (b : LayerStackBuilder) (seq : List String)
    (to_key : String) (i : Nat) (hi : i < seq.length) :
    stepVarName b seq i =
      b.name ++ "_seq_" ++ String.intercalate "_" seq ++ "_step" ++
        toString (i + 1) ∧
    (∃ rest, ruleGet (stepRule b seq to_key i) "to" =
      some (Val.list (setVar (b.name ++ "_seq_" ++
        String.intercalate "_" seq ++ "_step" ++ toString (i + 1)) 1 ::
        rest))) ∧
    (0 < i → ruleGet (stepRule b seq to_key i) "conditions" =
      some (Val.list (layer_conditions b ++
        [varIf (b.name ++ "_seq_" ++ String.intercalate "_" seq ++
          "_step" ++ toString i) 1]))) ∧
    ruleGet (stepRule b seq to_key i) "to_delayed_action" =
      some (Val.dict
        [("to_if_canceled", Val.list
          (setVar (b.name ++ "_seq_" ++ String.intercalate "_" seq ++
              "_step" ++ toString (i + 1)) 0 ::
            (if i = 0 then []
             else [setVar (b.name ++ "_seq_" ++
               String.intercalate "_" seq ++ "_step" ++ toString i) 0]))),
         ("to_if_invoked", Val.list [])]) ∧
    (i = seq.length - 1 → ruleGet (stepRule b seq to_key i) "to" =
      some (Val.list ([setVar (b.name ++ "_seq_" ++
          String.intercalate "_" seq ++ "_step" ++ toString (i + 1)) 1,
        kc to_key] ++
        (List.range seq.length).map (fun j =>
          setVar (b.name ++ "_seq_" ++ String.intercalate "_" seq ++
            "_step" ++ toString (j + 1)) 0)))) := by
  have hname : ∀ j : Nat, stepVarName b seq j =
      b.name ++ "_seq_" ++ String.intercalate "_" seq ++ "_step" ++
        toString (j + 1) := by
    intro j
    simp [stepVarName, seqName, String.append_assoc]
  refine ⟨hname i, ?_, ?_, ?_, ?_⟩
  · refine ⟨(if i = seq.length - 1 then kc to_key :: resetAll b seq
      else []), ?_⟩
    rw [← hname i]
    rfl
  · intro h
    have h0 : ¬ i = 0 := by omega
    have base : ruleGet (stepRule b seq to_key i) "conditions" =
        some (Val.list (layer_conditions b ++
          (if i = 0 then []
           else [varIf (stepVarName b seq (i - 1)) 1]))) := rfl
    rw [base, if_neg h0, hname (i - 1), show i - 1 + 1 = i from by omega]
  · have base : ruleGet (stepRule b seq to_key i) "to_delayed_action" =
        some (Val.dict
          [("to_if_canceled", Val.list ([setVar (stepVarName b seq i) 0] ++
              (if i = 0 then []
               else [setVar (stepVarName b seq (i - 1)) 0]))),
           ("to_if_invoked", Val.list [])]) := rfl
    rw [base]
    by_cases h0 : i = 0
    · rw [if_pos h0, if_pos h0, hname i]
      rfl
    · rw [if_neg h0, if_neg h0, hname i, hname (i - 1),
        show i - 1 + 1 = i from by omega]
      rfl
  · intro h
    have base : ruleGet (stepRule b seq to_key i) "to" =
        some (Val.list ([setVar (stepVarName b seq i) 1] ++
          (if i = seq.length - 1 then kc to_key :: resetAll b seq
           else []))) := rfl
    rw [base, if_pos h]
    simp only [resetAll, hname]
    rfl

/-- Witness for C10 at a concrete sequence and step. -/
theorem step_variable_names_witness :
    stepVarName seqLayer ["g", "g"] 1 = "L_seq_g_g_step2" := by
  have h := (step_variable_names seqLayer ["g", "g"] "home" 1 (by decide)).1
  simpa using h

/-! ## C2 — rule-list length and fixed build order -/

theorem build_sequence_rules_length (b : LayerStackBuilder) :
    (build_sequence_rules b).length =
      (b.sequences.map (fun p => p.1.length)).sum := by
  unfold build_sequence_rules
  induction b.sequences with
  | nil => rfl
  | cons p rest ih => simp [List.flatMap_cons, ih]

/-- C2: a successful `build_rules()` returns
`1 + #mappings + #combos + Σ sequence key counts` rules, in the fixed
order activation rule, then the mapping rules in insertion order, then the
combo rules in insertion order, then the sequence step rules. -/
theorem build_rules_length_and_order (reg : List (String × Template))
    (b : LayerStackBuilder) (rules : List Rule)
    (h : build_rules reg b = .ok rules) :
    rules.length = 1 + b.mappings.length + b.combos.length +
      (b.sequences.map (fun p => p.1.length)).sum ∧
    ∃ maps combos,
      build_mapping_rules reg b = .ok maps ∧
      build_combo_rules b = .ok combos ∧
      rules = build_activation_rule b ::
        (maps ++ combos ++ build_sequence_rules b) ∧
      maps.length = b.mappings.length ∧
      combos.length = b.combos.length ∧
      (build_sequence_rules b).length =
        (b.sequences.map (fun p => p.1.length)).sum ∧
      (∀ i r, maps.get? i = some r → ∃ p, b.mappings.get? i = some p ∧
        mappingRule reg b p.1 p.2 = .ok r) ∧
      (∀ i r, combos.get? i = some r → ∃ c, b.combos.get? i = some c ∧
        comboRule b c.1 c.2.1 c.2.2 = .ok r) := by
  unfold build_rules at h
  cases hm : build_mapping_rules reg b with
  | error e => rw [hm] at h; cases h
  | ok maps =>
      rw [hm] at h
      cases hc : build_combo_rules b with
      | error e => rw [hc] at h; cases h
      | ok combos =>
          rw [hc] at h
          cases h
          have hml : maps.length = b.mappings.length :=
            collectE_ok_length _ _ _ hm
          have hcl : combos.length = b.combos.length :=
            collectE_ok_length _ _ _ hc
          have hsl := build_sequence_rules_length b
          refine ⟨?_, maps, combos, rfl, rfl, rfl, hml, hcl, hsl, ?_, ?_⟩
          · simp only [List.length_cons, List.length_append, hml, hcl, hsl]
            omega
          · intro i r hir
            obtain ⟨p, hp, hfr⟩ := collectE_ok_get _ _ _ hm i r hir
            exact ⟨p, hp, hfr⟩
          · intro i r hir
            obtain ⟨c, hcmem, hfr⟩ := collectE_ok_get _ _ _ hc i r hir
            exact ⟨c, hcmem, hfr⟩

/-- Witness for C2 on a concrete layer with one mapping, one combo and one
two-key sequence. -/
theorem build_rules_length_and_order_witness :
    ∃ rules, build_rules MACRO_TEMPLATES
      { name := "L", trigger_keys := ["a"], to_if_alone := none,
        mappings := [("j", MapTarget.key "left_arrow")],
        combos := [(["j", "k"], ComboTarget.key "escape", {})],
        sequences := [(["g", "g"], "home")] } = .ok rules ∧
      rules.length = 5 := by
  refine ⟨_, rfl, ?_⟩
  have h := (build_rules_length_and_order MACRO_TEMPLATES
    { name := "L", trigger_keys := ["a"], to_if_alone := none,
      mappings := [("j", MapTarget.key "left_arrow")],
      combos := [(["j", "k"], ComboTarget.key "escape", {})],
      sequences := [(["g", "g"], "home")] } _ rfl).1
  simpa using h

/-! ## C3 — scope-condition propagation -/

theorem activation_no_conditions (b : LayerStackBuilder) :
    ruleGet (build_activation_rule b) "conditions" = none := by
  rcases b with ⟨name, tks, alone, mps, cbs, sqs, tmo, conds⟩
  cases tks with
  | nil => rfl
  | cons k t =>
      cases t with
      | nil => cases alone <;> rfl
      | cons k2 t2 => rfl

theorem mappingRule_conditions (reg : List (String × Template))
    (b : LayerStackBuilder) (fk : String) (tgt : MapTarget) (r : Rule)
    (h : mappingRule reg b fk tgt = .ok r) :
    ruleGet r "conditions" = some (Val.list (layer_conditions b)) := by
  cases tgt with
  | key s =>
      simp only [mappingRule] at h
      cases h
      rfl
  | act d =>
      simp only [mappingRule] at h
      cases h
      rfl
  | tmpl t params =>
      simp only [mappingRule] at h
      cases hmsc : make_shell_command reg t params with
      | error e => rw [hmsc] at h; simp [Except.map] at h
      | ok acts =>
          rw [hmsc] at h
          simp only [Except.map] at h
          cases h
          rfl

theorem comboRule_conditions (b : LayerStackBuilder) (c : List String)
    (tt : ComboTarget) (opts : SimOptions) (r : Rule)
    (h : comboRule b c tt opts = .ok r) :
    ruleGet r "conditions" =
      some (Val.list (varIf b.name 1 :: b.conditions)) := by
  simp only [comboRule] at h
  cases hmk : SimultaneousManipulator.make c tt b.name b.conditions opts with
  | error e => rw [hmk] at h; simp [Except.map] at h
  | ok manip =>
      rw [hmk] at h
      simp only [Except.map] at h
      cases h
      simp only [SimultaneousManipulator.make] at hmk
      by_cases h2 : c.length < 2
      · rw [if_pos h2] at hmk; cases hmk
      · rw [if_neg h2] at hmk
        by_cases h3 : c.any (fun k => k = "") = true
        · rw [if_pos h3] at hmk; cases hmk
        · rw [if_neg h3] at hmk
          cases hmk
          rfl

/-- C3: every compiled mapping, combo and sequence-step rule carries a
conditions list containing `VariableIf(layerName, 1)` and all of the
layer's scope conditions, while the activation rule's manipulator has no
conditions entry at all. -/
theorem scope_conditions_propagate (reg : List (String × Template))
    (b : LayerStackBuilder) (rules : List Rule)
    (h : build_rules reg b = .ok rules) :
    rules.head? = some (build_activation_rule b) ∧
    ruleGet (build_activation_rule b) "conditions" = none ∧
    ∀ r ∈ rules.tail, ∃ cs, ruleGet r "conditions" = some (Val.list cs) ∧
      varIf b.name 1 ∈ cs ∧ ∀ c ∈ b.conditions, c ∈ cs := by
  unfold build_rules at h
  cases hm : build_mapping_rules reg b with
  | error e => rw [hm] at h; cases h
  | ok maps =>
      rw [hm] at h
      cases hc : build_combo_rules b with
      | error e => rw [hc] at h; cases h
      | ok combos =>
          rw [hc] at h
          cases h
          refine ⟨rfl, activation_no_conditions b, ?_⟩
          intro r hr
          simp only [List.tail_cons] at hr
          rcases List.mem_append.mp hr with hmc | hs
          · rcases List.mem_append.mp hmc with hmap | hcombo
            · obtain ⟨p, _, hfr⟩ := collectE_ok_mem _ _ _ hm r hmap
              refine ⟨layer_conditions b,
                mappingRule_conditions reg b p.1 p.2 r hfr, ?_, ?_⟩
              · exact List.mem_cons_self _ _
              · intro cnd hcnd
                exact List.mem_cons_of_mem _ hcnd
            · obtain ⟨c, _, hfr⟩ := collectE_ok_mem _ _ _ hc r hcombo
              refine ⟨varIf b.name 1 :: b.conditions,
                comboRule_conditions b c.1 c.2.1 c.2.2 r hfr, ?_, ?_⟩
              · exact List.mem_cons_self _ _
              · intro cnd hcnd
                exact List.mem_cons_of_mem _ hcnd
          · simp only [build_sequence_rules, List.mem_flatMap,
              List.mem_map, List.mem_range] at hs
            obtain ⟨p, _, i, _, hstep⟩ := hs
            refine ⟨layer_conditions b ++
              (if i = 0 then [] else [varIf (stepVarName b p.1 (i - 1)) 1]),
              ?_, ?_, ?_⟩
            · rw [← hstep]
              rfl
            · exact List.mem_append_left _ (List.mem_cons_self _ _)
            · intro cnd hcnd
              exact List.mem_append_left _ (List.mem_cons_of_mem _ hcnd)

/-- Witness for C3 on a concrete app-scoped layer. -/
theorem scope_conditions_propagate_witness :
    ∃ rules, build_rules MACRO_TEMPLATES
      { name := "L", trigger_keys := ["a"], to_if_alone := none,
        mappings := [("j", MapTarget.key "left_arrow")],
        conditions := [appIfCond ["com.foo.Bar"]] } = .ok rules ∧
      (∀ r ∈ rules.tail, ∃ cs,
        ruleGet r "conditions" = some (Val.list cs) ∧
        varIf "L" 1 ∈ cs ∧ appIfCond ["com.foo.Bar"] ∈ cs) := by
  refine ⟨_, rfl, ?_⟩
  intro r hr
  have h := (scope_conditions_propagate MACRO_TEMPLATES
    { name := "L", trigger_keys := ["a"], to_if_alone := none,
      mappings := [("j", MapTarget.key "left_arrow")],
      conditions := [appIfCond ["com.foo.Bar"]] } _ rfl).2.2 r hr
  obtain ⟨cs, h1, h2, h3⟩ := h
  exact ⟨cs, h1, h2, h3 _ (List.mem_cons_self _ _)⟩

/-! ## C4 — heap model for object identity

The pure `Val` model cannot express aliasing, so this fragment makes
Python object identity explicit: mutable objects (dicts, lists) live in a
heap addressed by allocation order, immutable leaves are stored inline.
`SimultaneousManipulator.build` allocates its dict/list literals fresh but
embeds `self.to_target`, the elements of `self.extra_conditions`, and the
`to_after_key_up` option value by reference, exactly as the source does
(no `deepcopy` anywhere in the class, unlike `models.py`). -/

inductive PyVal where
  | prim (v : Val)
  | ref (a : Nat)
deriving DecidableEq, Repr

inductive PyObj where
  | dct (entries : List (String × PyVal))
  | lst (items : List PyVal)
deriving DecidableEq, Repr

abbrev Heap := List PyObj

/-- Allocate a fresh object, returning its reference. -/
def alloc (h : Heap) (o : PyObj) : Heap × PyVal :=
  (h ++ [o], .ref h.length)

/-- In-place mutation of the object at address `a`. -/
def setAt (h : Heap) (a : Nat) (o : PyObj) : Heap := h.set a o

/-- Read a heap value as a pure tree: the observable contents a serializer
(or a structural comparison) would see.  Fuel bounds the depth. -/
def toTree (h : Heap) : Nat → PyVal → Option Val
  | _, .prim v => some v
  | 0, .ref _ => none
  | fuel + 1, .ref a =>
      match h.get? a with
      | some (.dct es) =>
          (es.mapM (fun kv =>
            (toTree h fuel kv.2).map (fun t => (kv.1, t)))).map Val.dict
      | some (.lst xs) => (xs.mapM (toTree h fuel)).map Val.list
      | none => none

/-- Generic key lookup in an ordered dict of heap values. -/
def lookupK {α : Type} (xs : List (String × α)) (k : String) : Option α :=
  (xs.find? (fun p => p.1 == k)).map (fun p => p.2)

/-- Python truthiness of a heap value (`if value:`). -/
def truthyH (h : Heap) : PyVal → Bool
  | .prim v => truthy v
  | .ref a =>
      match h.get? a with
      | some (.dct es) => !es.isEmpty
      | some (.lst xs) => !xs.isEmpty
      | none => false

/-- Python `value == "s"` for a heap value: only an (immutable) string
compares equal to a string. -/
def eqStrH (v : PyVal) (s : String) : Bool :=
  match v with
  | .prim w => w == Val.str s
  | .ref _ => false

/-- `SimultaneousManipulator` state in the heap model.  `to_target` is the
reference stored by `__init__` (the caller's own list object when `to_key`
was passed as a list); `extra_conditions` holds the references to the
condition dicts of the caller's `conditions` list; `options` is the kwargs
dict (a fresh dict at every call, so only its values can alias). -/
structure SimManipH where
  combo_keys : List String
  to_target : PyVal
  variable_name : String
  extra_conditions : List PyVal
  options : List (String × PyVal)
deriving Repr

/-- Heap-model transcription of `SimultaneousManipulator.build`.  The
source assigns `result["from"]["simultaneous_options"]` after building
`result`; since the `from` dict is the same object, that is modelled as
the conditional last entry of the `from` dict. -/
def simBuildH (h : Heap) (m : SimManipH) : Heap × PyVal :=
  let sim_options : List (String × PyVal) :=
    [("detect_key_down_uninterruptedly",
      (lookupK m.options "detect_key_down_uninterruptedly").getD
        (.prim (.bool false))),
     ("key_down_order",
      (lookupK m.options "key_down_order").getD (.prim (.str "insensitive"))),
     ("key_up_order",
      (lookupK m.options "key_up_order").getD (.prim (.str "insensitive"))),
     ("key_up_when",
      (lookupK m.options "key_up_when").getD (.prim (.str "any")))]
  let filtered_options := sim_options.filter (fun kv =>
    truthyH h kv.2 &&
    !((kv.1 == "key_down_order" || kv.1 == "key_up_order") &&
        eqStrH kv.2 "insensitive") &&
    !(kv.1 == "key_up_when" && eqStrH kv.2 "any"))
  let (h1, keyRefs) := m.combo_keys.foldl
    (fun (acc : Heap × List PyVal) k =>
      let (h2, r) := alloc acc.1 (.dct [("key_code", .prim (.str k))])
      (h2, acc.2 ++ [r]))
    (h, [])
  let (h2, simRef) := alloc h1 (.lst keyRefs)
  let (h3, anyRef) := alloc h2 (.lst [.prim (.str "any")])
  let (h4, modRef) := alloc h3 (.dct [("optional", anyRef)])
  let (h5, fromEntries) :=
    if filtered_options.isEmpty then
      (h4, [("simultaneous", simRef), ("modifiers", modRef)])
    else
      let (h5, foRef) := alloc h4 (.dct filtered_options)
      (h5, [("simultaneous", simRef), ("modifiers", modRef),
        ("simultaneous_options", foRef)])
  let (h6, fromRef) := alloc h5 (.dct fromEntries)
  let (h7, varifRef) := alloc h6 (.dct
    [("type", .prim (.str "variable_if")),
     ("name", .prim (.str m.variable_name)),
     ("value", .prim (.int 1))])
  let (h8, condRef) := alloc h7 (.lst (varifRef :: m.extra_conditions))
  alloc h8 (.dct
    ([("type", .prim (.str "basic")), ("from", fromRef),
      ("to", m.to_target), ("conditions", condRef)] ++
     (match lookupK m.options "to_after_key_up" with
      | none => []
      | some v => [("to_after_key_up", v)])))

/-- The concrete builder of the C4 counterexample: the combo manipulator a
layer builds for `map_combo(["j","k"], to_key=[{"key_code": "escape"}])`,
with the caller-owned action dict at address 0 and the `to_target` list at
address 1. -/
def simDemoHeap : Heap :=
  [.dct [("key_code", .prim (.str "escape"))], .lst [.ref 0]]

def simDemo : SimManipH :=
  { combo_keys := ["j", "k"], to_target := .ref 1,
    variable_name := "hyper", extra_conditions := [], options := [] }

/-- C4 evaluated at the failing input: `build()` returns a tree whose `to`
entry is the builder's own `to_target` list, so (1) the compiled tree
initially reads as the expected pure tree, (2) compiling again without
mutation yields the same reading (idempotence holds), but (3) mutating the
builder-held action dict afterwards changes what the previously returned
tree reads as — the compiled tree shares mutable structure with the
builder, contradicting the no-aliasing claim. -/
theorem sim_build_aliases_builder_state :
    toTree (simBuildH simDemoHeap simDemo).1 10
        (simBuildH simDemoHeap simDemo).2 =
      some (SimultaneousManipulator.build
        { combo_keys := ["j", "k"], to_target := [kc "escape"],
          variable_name := "hyper", extra_conditions := [],
          options := {} }) ∧
    toTree (simBuildH (simBuildH simDemoHeap simDemo).1 simDemo).1 10
        (simBuildH (simBuildH simDemoHeap simDemo).1 simDemo).2 =
      some (SimultaneousManipulator.build
        { combo_keys := ["j", "k"], to_target := [kc "escape"],
          variable_name := "hyper", extra_conditions := [],
          options := {} }) ∧
    toTree (setAt (simBuildH simDemoHeap simDemo).1 0
        (.dct [("key_code", .prim (.str "q"))])) 10
        (simBuildH simDemoHeap simDemo).2 =
      some (SimultaneousManipulator.build
        { combo_keys := ["j", "k"], to_target := [kc "q"],
          variable_name := "hyper", extra_conditions := [],
          options := {} }) ∧
    SimultaneousManipulator.build
        { combo_keys := ["j", "k"], to_target := [kc "escape"],
          variable_name := "hyper", extra_conditions := [],
          options := {} } ≠
      SimultaneousManipulator.build
        { combo_keys := ["j", "k"], to_target := [kc "q"],
          variable_name := "hyper", extra_conditions := [],
          options := {} } :=
  ⟨rfl, rfl, rfl, by decide⟩

end KPyX
